import Mathlib

/-!
Verification of the bytecode link-reference engine of `py-ethpm`.

Build side (`ethpm/tools/builder.py`): hex bytecode strings are modelled as
`List Char`; compiler-output dictionaries (insertion ordered in Python 3.7+)
are modelled as association lists.  Python exceptions are modelled with
`Except`.  Python slicing `s[a:b]` on non-negative bounds is
`(s.drop a).take (b - a)` (both clamp at the ends, like Python), and
`s[-2:]` is `s.drop (s.length - 2)` (Nat subtraction clamps at zero exactly
as Python clamps a negative start for short strings).

Deploy side (`ethpm/utils/deployments.py`): that module is not among the
provided sources (only its test suite is), so its three functions are
modelled from the spec, as marked in their doc comments.
-/

namespace EthPM

/-- A compiler-reported link-reference range `{"start": …, "length": …}`,
counted in bytes. -/
structure LinkRef where
  start : Nat
  length : Nat
deriving DecidableEq, Repr

/-- The raw `linkReferences` field of one contract's compiler output:
source path → (symbol name → list of ranges), insertion ordered. -/
abbrev LinkRefs : Type := List (String × List (String × List LinkRef))

/-- A normalized manifest-facing link reference record produced by
`normalize_link_ref`. -/
structure LinkReference where
  name : String
  length : Nat
  offsets : List Nat
deriving DecidableEq, Repr

/-- Errors raised by the build-side functions of `ethpm/tools/builder.py`. -/
inductive BuildError where
  /-- `ValidationError` raised by `validate_link_ref`. -/
  | invalidLinkRef (slot : List Char) (offset length : Nat)
  /-- `ManifestBuildingError`: duplicate contract names in compiler output. -/
  | duplicateNames
  /-- Python `ValueError` from `zip(*[])` on empty compiler output. -/
  | emptyCompilerOutput
  /-- Python `IndexError` from `list(link_ref.keys())[0]` on an empty dict. -/
  | emptyLinkRef
deriving DecidableEq, Repr

/-- The hex-character slot `bytecode[offset : offset + length]` examined by
`validate_link_ref`. -/
def link_slot (offset length : Nat) (bytecode : List Char) : List Char :=
  (bytecode.drop offset).take length

/-- The condition under which `validate_link_ref` raises:
`slot[:2] != "__" and slot[-2:] != "__"` (both boundary markers absent). -/
def link_ref_invalid (offset length : Nat) (bytecode : List Char) : Bool :=
  let slot := link_slot offset length bytecode
  (slot.take 2 != ['_', '_']) && (slot.drop (slot.length - 2) != ['_', '_'])

/-- `validate_link_ref(offset, length, bytecode)` (builder.py:394-403):
raises `ValidationError` when the slot has the `__` marker at neither
boundary, otherwise returns the bytecode unchanged. -/
def validate_link_ref (offset length : Nat) (bytecode : List Char) :
    Except BuildError (List Char) :=
  if link_ref_invalid offset length bytecode then
    Except.error (BuildError.invalidLinkRef (link_slot offset length bytecode) offset length)
  else
    Except.ok bytecode

/-- `replace_link_ref_in_bytecode(offset, length, bytecode)` (builder.py:361-366):
`bytecode[:offset] + "0" * length + bytecode[offset + length:]`. -/
def replace_link_ref_in_bytecode (offset length : Nat) (bytecode : List Char) :
    List Char :=
  bytecode.take offset ++ List.replicate length '0' ++ bytecode.drop (offset + length)

/-- `eth_utils.add_0x_prefix`: prepend `"0x"` unless the string already
starts with `"0x"` or `"0X"`. -/
def add0xPrefix (s : List Char) : List Char :=
  if s.take 2 = ['0', 'x'] ∨ s.take 2 = ['0', 'X'] then s else '0' :: 'x' :: s

/-- The flattened list of ranges
`cytoolz.concat([y for x in link_refs.values() for y in x.values()])`
used by `process_bytecode`. -/
def all_link_refs (link_refs : LinkRefs) : List LinkRef :=
  link_refs.flatMap (fun p => p.2.flatMap (fun q => q.2))

/-- `process_bytecode(link_refs, bytecode)` (builder.py:341-358): first pipe
the bytecode through `validate_link_ref` for every range (each call returns
the string unchanged or raises), then pipe it through
`replace_link_ref_in_bytecode` for every range, then `add_0x_prefix`. -/
def process_bytecode (link_refs : LinkRefs) (bytecode : List Char) :
    Except BuildError (List Char) := do
  let refs := all_link_refs link_refs
  let _ ← refs.foldlM
    (fun bc ref => validate_link_ref (ref.start * 2) (ref.length * 2) bc) bytecode
  let processed := refs.foldl
    (fun bc ref => replace_link_ref_in_bytecode (ref.start * 2) (ref.length * 2) bc) bytecode
  Except.ok (add0xPrefix processed)

/-- `normalize_offsets(data, bytecode)` (builder.py:387-391): all `start`
fields of all ranges of all symbols in one path entry, in input order. -/
def normalize_offsets (data : List (String × List LinkRef)) (_bytecode : List Char) :
    List Nat :=
  data.flatMap (fun p => p.2.map (fun r => r.start))

/-- `normalize_link_ref(link_ref, bytecode)` (builder.py:378-384): the name
is `list(link_ref.keys())[0]` (first symbol name in the entry, `IndexError`
if empty), `length` is the constant 20, offsets come from
`normalize_offsets`. -/
def normalize_link_ref (link_ref : List (String × List LinkRef)) (bytecode : List Char) :
    Except BuildError LinkReference :=
  match link_ref with
  | [] => Except.error BuildError.emptyLinkRef
  | (name, _) :: _ =>
      Except.ok { name := name, length := 20, offsets := normalize_offsets link_ref bytecode }

/-- `process_link_references(link_refs, bytecode)` (builder.py:370-375):
one `normalize_link_ref` result per path entry of the map, in order. -/
def process_link_references (link_refs : LinkRefs) (bytecode : List Char) :
    Except BuildError (List LinkReference) :=
  (link_refs.map Prod.snd).mapM (fun entry => normalize_link_ref entry bytecode)

/-- One contract's `evm.bytecode` compiler-output object:
`{"linkReferences": …, "object": hex}`. -/
structure BytecodeObject where
  linkReferences : LinkRefs
  object : List Char
deriving DecidableEq, Repr

/-- The normalized bytecode entry produced by `normalize_bytecode_object`;
`link_references := none` models the key being omitted from the dict. -/
structure NormalizedBytecode where
  bytecode : List Char
  link_references : Option (List LinkReference)
deriving DecidableEq, Repr

/-- `normalize_bytecode_object(obj)` (builder.py:330-338): when
`obj["linkReferences"]` is truthy (non-empty), yield both `link_references`
and the processed bytecode; otherwise yield only the `0x`-prefixed object. -/
def normalize_bytecode_object (obj : BytecodeObject) :
    Except BuildError NormalizedBytecode :=
  if obj.linkReferences ≠ [] then do
    let lr ← process_link_references obj.linkReferences obj.object
    let bc ← process_bytecode obj.linkReferences obj.object
    Except.ok { bytecode := bc, link_references := some lr }
  else
    Except.ok { bytecode := add0xPrefix obj.object, link_references := none }

/-- The fields of one contract's compiler output consumed by
`normalize_contract_type`: the (opaque, passed-through) `abi` and
`evm.bytecode`. -/
structure ContractData where
  abi : String
  bytecode : BytecodeObject
deriving DecidableEq, Repr

/-- The normalized contract-type entry produced by
`normalize_contract_type`; `natspec` is the constant empty dict. -/
structure ContractType where
  abi : String
  deployment_bytecode : NormalizedBytecode
  natspec : Unit
deriving DecidableEq, Repr

/-- `normalize_contract_type(contract_type_data)` (builder.py:315-327). -/
def normalize_contract_type (d : ContractData) : Except BuildError ContractType := do
  let db ← normalize_bytecode_object d.bytecode
  Except.ok { abi := d.abi, deployment_bytecode := db, natspec := () }

/-- A full compiler output: source path → (contract name → contract data),
insertion ordered. -/
abbrev CompilerOutput : Type := List (String × List (String × ContractData))

/-- The `(path, contract_name)` pairs collected by
`normalize_compiler_output` (builder.py:299-303). -/
def paths_and_names (co : CompilerOutput) : List (String × String) :=
  co.flatMap (fun p => p.2.map (fun c => (p.1, c.1)))

/-- `normalize_compiler_output(compiler_output)` (builder.py:294-312):
`zip(*[])` raises on empty output; then if the contract names are not
pairwise distinct (`len(names) != len(set(names))`), raise
`ManifestBuildingError`; otherwise normalize every contract, keyed by
name. -/
def normalize_compiler_output (co : CompilerOutput) :
    Except BuildError (List (String × ContractType)) :=
  if paths_and_names co = [] then
    Except.error BuildError.emptyCompilerOutput
  else if ((paths_and_names co).map Prod.snd).Nodup then
    (co.flatMap (fun p => p.2)).mapM (fun c => do
      let ct ← normalize_contract_type c.2
      Except.ok (c.1, ct))
  else
    Except.error BuildError.duplicateNames

/-- The kind tag of a link dependency: `"reference"` (value names a sibling
deployment) or `"literal"` (value is a fixed external byte value). -/
inductive DepKind where
  | reference
  | literal
deriving DecidableEq, Repr

/-- A raw deploy-time link-dependency record as read from a manifest,
`{"offsets": …, "type": …, "value": …}`; `Option` fields model possibly
missing dictionary keys. -/
structure RawLinkDependency where
  offsets : Option (List Nat)
  type : Option String
  value : Option String
deriving DecidableEq, Repr

/-- A well-formed deploy-time link dependency with its kind parsed to the
`DepKind` sum type. -/
structure LinkDependency where
  offsets : List Nat
  kind : DepKind
  value : String
deriving DecidableEq, Repr

/-- The `runtime_bytecode` part of a deployment record. -/
structure RuntimeBytecode where
  link_dependencies : List LinkDependency
deriving DecidableEq, Repr

/-- A deployment record from a manifest's deployments section (its name is
the key it is stored under in the name-keyed mapping). -/
structure Deployment where
  contract_type : String
  address : String
  transaction_hash : String
  block_hash : String
  runtime_bytecode : Option RuntimeBytecode
deriving DecidableEq, Repr

/-- Errors raised by the deploy-side functions of
`ethpm/utils/deployments.py`. -/
inductive DeployError where
  /-- Structural error: a link-dependency record is missing a field. -/
  | missingField
  /-- `ValidationError`: declared bytes absent at a declared offset. -/
  | mismatch (offset : Nat) (expected actual : List Nat)
  /-- `BytecodeLinkingError`: a deployment's dependency names itself. -/
  | selfReference
deriving DecidableEq, Repr

/-- Modelled from the spec: `normalize_link_dependencies` of
`ethpm/utils/deployments.py` is not among the provided sources (only its
tests are).  Per §4.2, for each input record in order emit one
`(offset, type, value)` triple per offset of that record, in the order
given, with no cross-record sorting or deduplication; a record missing
`offsets`/`type`/`value` is a structural error. -/
def normalize_link_dependencies (deps : List RawLinkDependency) :
    Except DeployError (List (Nat × String × String)) :=
  match deps with
  | [] => Except.ok []
  | d :: rest =>
      match d.offsets, d.type, d.value with
      | some os, some t, some v => do
          let tail ← normalize_link_dependencies rest
          Except.ok (os.map (fun o => (o, t, v)) ++ tail)
      | _, _, _ => Except.error DeployError.missingField

/-- Modelled from the spec: `validate_link_dependencies` of
`ethpm/utils/deployments.py` is not among the provided sources (only its
tests are).  Per §4.3, for every `(offset, value)` pair require
`bytecode[offset : offset + len(value)]` byte-identical to `value` (a
window running past the buffer end truncates and therefore mismatches);
fail fast on the first mismatch, reporting offset, expected and actual
bytes; the kind tag is informational only and is omitted here. -/
def validate_link_dependencies (deps : List (Nat × List Nat)) (bytecode : List Nat) :
    Except DeployError Unit :=
  match deps.find? (fun p => !((bytecode.drop p.1).take p.2.length == p.2)) with
  | some p =>
      Except.error (DeployError.mismatch p.1 p.2 ((bytecode.drop p.1).take p.2.length))
  | none => Except.ok ()

/-- The link dependencies of a deployment record, empty when the record has
no `runtime_bytecode` entry at all. -/
def link_deps_of (d : Deployment) : List LinkDependency :=
  match d.runtime_bytecode with
  | some rb => rb.link_dependencies
  | none => []

/-- Whether a named deployment contains a `reference`-kind dependency whose
value is the deployment's own name. -/
def has_self_reference (p : String × Deployment) : Bool :=
  (link_deps_of p.2).any (fun dep => dep.kind == DepKind.reference && dep.value == p.1)

/-- Modelled from the spec: `get_linked_deployments` of
`ethpm/utils/deployments.py` is not among the provided sources (only its
tests are).  Per §4.4, filter the name-keyed mapping to the deployments
whose `runtime_bytecode.link_dependencies` is non-empty (deployments
lacking `runtime_bytecode` are excluded); if any candidate has a
`reference` dependency naming itself, the whole call fails with a
self-reference error, returning no partial mapping; otherwise return the
filtered mapping unchanged. -/
def get_linked_deployments (deployments : List (String × Deployment)) :
    Except DeployError (List (String × Deployment)) :=
  let linked := deployments.filter (fun p => !(link_deps_of p.2).isEmpty)
  if linked.any has_self_reference then
    Except.error DeployError.selfReference
  else
    Except.ok linked

/-! ## Concrete sample inputs used by witnesses -/

/-- A minimal contract-data record (empty ABI blob, no bytecode). -/
def sampleContractData : ContractData :=
  { abi := "[]", bytecode := { linkReferences := [], object := [] } }

/-- A compiler output in which two different source paths report the same
contract name `"Dup"`. -/
def dupOutput : CompilerOutput :=
  [("a.sol", [("Dup", sampleContractData)]), ("b.sol", [("Dup", sampleContractData)])]

/-- The self-referencing `"Escrow"` deployment of the test suite
(`test_get_linked_deployments_raises_exception_with_self_reference`). -/
def escrowDeployment : Deployment :=
  { contract_type := "Escrow",
    address := "0x8c1968deB27251A3f1F4508df32dA4dfD1b7b57f",
    transaction_hash := "0xc60e32c63abf34579390ef65d83cc5eb52225de38c3eeca2e5afa961d71c16d0",
    block_hash := "0x4d1a618802bb87752d95db453dddeea622820424a2f836bedf8769a67ee276b8",
    runtime_bytecode := some
      { link_dependencies := [{ offsets := [301, 495], kind := DepKind.reference,
                                value := "Escrow" }] } }

/-- A well-formed sibling deployment with no runtime bytecode at all. -/
def safeMathDeployment : Deployment :=
  { contract_type := "SafeMathLib",
    address := "0x8d2c532d7d211816a2807a411f947b211569b68c",
    transaction_hash := "0xaceef751507a79c2dee6aa0e9d8f759aa24aab081f6dcf6835d792770541cb2b",
    block_hash := "0x420cb2b2bd634ef42f9082e1ee87a8d4aeeaf506ea5cdeddaa8ff7cbf911810c",
    runtime_bytecode := none }

/-! ## Theorems -/

/-- The raise condition of `validate_link_ref`, written out: the `__` marker
is absent at the first two characters and at the last two characters of the
slot. -/
theorem link_ref_invalid_eq_true_iff (offset length : Nat) (bytecode : List Char) :
    link_ref_invalid offset length bytecode = true ↔
      (link_slot offset length bytecode).take 2 ≠ ['_', '_'] ∧
        (link_slot offset length bytecode).drop
          ((link_slot offset length bytecode).length - 2) ≠ ['_', '_'] := by
  simp [link_ref_invalid]

/-- C1 counterexample: the slot `"__abcd"` (hex offset 0, hex length 6) does
not end with the `__` marker, so by the claim `validate_link_ref` would have
to raise, yet it returns the bytecode unchanged: the code raises only when
the marker is missing at both boundaries. -/
theorem validate_link_ref_accepts_one_sided_marker :
    (link_slot 0 6 "__abcd".toList).drop
        ((link_slot 0 6 "__abcd".toList).length - 2) ≠ ['_', '_'] ∧
      validate_link_ref 0 6 "__abcd".toList = Except.ok "__abcd".toList :=
  ⟨by decide, rfl⟩

/-- C1 (amended): `validate_link_ref` raises the format (validation) error
exactly when the slot at the given hex offsets has the `__` marker at
neither its first two nor its last two characters; a slot carrying the
marker at at least one boundary is accepted. -/
theorem validate_link_ref_error_iff (offset length : Nat) (bytecode : List Char) :
    (∃ e, validate_link_ref offset length bytecode = Except.error e) ↔
      (link_slot offset length bytecode).take 2 ≠ ['_', '_'] ∧
        (link_slot offset length bytecode).drop
          ((link_slot offset length bytecode).length - 2) ≠ ['_', '_'] := by
  rw [← link_ref_invalid_eq_true_iff]
  unfold validate_link_ref
  by_cases h : link_ref_invalid offset length bytecode
  · simp [h]
  · simp [h]

/-- C2 counterexample: a link-reference map with two distinct symbol names
`"A"` (occurring at byte offset 5) and `"B"` (at byte offset 1) under one
source path yields a single record, named after the first symbol only, whose
offsets merge both names' occurrences in raw input order — not one record
per distinct name with its own offsets sorted strictly ascending. -/
theorem process_link_references_not_per_name :
    process_link_references [("p.sol", [("A", [⟨5, 20⟩]), ("B", [⟨1, 20⟩])])] [] =
        Except.ok [{ name := "A", length := 20, offsets := [5, 1] }] ∧
      ¬ List.Sorted (· < ·) [(5 : Nat), 1] :=
  ⟨rfl, by decide⟩

/-- C2 (amended): for every link-reference map all of whose path entries are
non-empty, `process_link_references` produces exactly one `LinkReference`
per path entry of the map (not per distinct symbol name), named after the
first symbol listed under that entry, with `length` fixed at 20 and
`offsets` the byte-level start positions of every range under that entry in
input order (neither sorted nor deduplicated). -/
theorem process_link_references_per_path (link_refs : LinkRefs) (bytecode : List Char)
    (h : ∀ p ∈ link_refs, p.2 ≠ []) :
    process_link_references link_refs bytecode =
      Except.ok (link_refs.map (fun p =>
        { name := (p.2.map Prod.fst).headD "", length := 20,
          offsets := p.2.flatMap (fun q => q.2.map (fun r => r.start)) })) := by
  induction link_refs with
  | nil => rfl
  | cons p rest ih =>
    have hp := h p (List.mem_cons_self p rest)
    have ih' := ih (fun q hq => h q (List.mem_cons_of_mem p hq))
    obtain ⟨a, tl, hpe⟩ := List.exists_cons_of_ne_nil hp
    obtain ⟨n, refs⟩ := a
    unfold process_link_references at ih' ⊢
    rw [List.map_cons, List.mapM_cons, ih']
    simp [hpe, normalize_link_ref, normalize_offsets]
    rfl

/-- C2 witness: the amended theorem applied to the counterexample input. -/
theorem process_link_references_per_path_witness :
    (∀ p ∈ ([("p.sol", [("A", [⟨5, 20⟩]), ("B", [⟨1, 20⟩])])] : LinkRefs), p.2 ≠ []) ∧
      process_link_references [("p.sol", [("A", [⟨5, 20⟩]), ("B", [⟨1, 20⟩])])] [] =
        Except.ok [{ name := "A", length := 20, offsets := [5, 1] }] :=
  ⟨by decide, process_link_references_per_path _ [] (by decide)⟩

/-- C7: normalizing a bytecode object whose `linkReferences` map is empty
returns the bytecode unchanged except for canonical `0x` prefixing, and the
produced entry omits `link_references` entirely (`none`). -/
theorem normalize_bytecode_object_no_refs (objHex : List Char) :
    normalize_bytecode_object { linkReferences := [], object := objHex } =
      Except.ok { bytecode := add0xPrefix objHex, link_references := none } := rfl

/-- C10: zero-patching a slot whose hex window is in bounds never changes
the length of the bytecode string. -/
theorem replace_link_ref_in_bytecode_preserves_length (offset length : Nat)
    (bytecode : List Char) (h : offset + length ≤ bytecode.length) :
    (replace_link_ref_in_bytecode offset length bytecode).length = bytecode.length := by
  simp [replace_link_ref_in_bytecode]
  omega

/-- C10 witness: the length-preservation theorem at a concrete input. -/
theorem replace_link_ref_in_bytecode_preserves_length_witness :
    2 + 2 ≤ ("abcdef".toList).length ∧
      (replace_link_ref_in_bytecode 2 2 "abcdef".toList).length =
        ("abcdef".toList).length :=
  ⟨by decide, replace_link_ref_in_bytecode_preserves_length 2 2 "abcdef".toList (by decide)⟩

/-- Pointwise description of `replace_link_ref_in_bytecode` on an in-bounds
window: character `i` of the result is `'0'` inside the window and the
original character elsewhere. -/
theorem replace_link_ref_getElem (offset length : Nat) (b : List Char)
    (h : offset + length ≤ b.length) (i : Nat) :
    (replace_link_ref_in_bytecode offset length b)[i]? =
      if i < offset then b[i]?
      else if i < offset + length then some '0'
      else b[i]? := by
  have htl : (b.take offset).length = offset := by
    rw [List.length_take]; omega
  unfold replace_link_ref_in_bytecode
  rw [List.append_assoc, List.getElem?_append, htl]
  by_cases h1 : i < offset
  · rw [if_pos h1, if_pos h1, List.getElem?_take, if_pos h1]
  · rw [if_neg h1, if_neg h1]
    rw [List.getElem?_append, List.length_replicate]
    by_cases h2 : i - offset < length
    · rw [if_pos h2, List.getElem?_replicate, if_pos h2, if_pos (by omega)]
    · rw [if_neg h2, List.getElem?_drop, if_neg (by omega)]
      congr 1
      omega

/-- C6: for a slot of byte offset `s` and byte length `L` whose doubled hex
window is in bounds, zero-patching writes the ASCII digit `'0'` on exactly
the hex characters in `[2s, 2s + 2L)` and leaves every character outside
that window unchanged. -/
theorem replace_link_ref_zero_patch_locality (s L : Nat) (b : List Char)
    (h : 2 * s + 2 * L ≤ b.length) :
    (∀ i, 2 * s ≤ i → i < 2 * s + 2 * L →
        (replace_link_ref_in_bytecode (2 * s) (2 * L) b)[i]? = some '0') ∧
      ∀ i, i < 2 * s ∨ 2 * s + 2 * L ≤ i →
        (replace_link_ref_in_bytecode (2 * s) (2 * L) b)[i]? = b[i]? := by
  constructor
  · intro i h1 h2
    rw [replace_link_ref_getElem (2 * s) (2 * L) b h i, if_neg (by omega),
      if_pos (by omega)]
  · intro i hi
    rw [replace_link_ref_getElem (2 * s) (2 * L) b h i]
    rcases hi with hi | hi
    · rw [if_pos hi]
    · rw [if_neg (by omega), if_neg (by omega)]

/-- C6 witness: the locality theorem at `s = 1`, `L = 1` on `"abcdef"`,
evaluated inside the window (index 2) and outside it (index 0). -/
theorem replace_link_ref_zero_patch_locality_witness :
    2 * 1 + 2 * 1 ≤ ("abcdef".toList).length ∧
      (replace_link_ref_in_bytecode (2 * 1) (2 * 1) "abcdef".toList)[2]? = some '0' ∧
      (replace_link_ref_in_bytecode (2 * 1) (2 * 1) "abcdef".toList)[0]? =
        ("abcdef".toList)[0]? :=
  ⟨by decide,
    (replace_link_ref_zero_patch_locality 1 1 "abcdef".toList (by decide)).1 2
      (by omega) (by omega),
    (replace_link_ref_zero_patch_locality 1 1 "abcdef".toList (by decide)).2 0
      (Or.inl (by omega))⟩

/-- C8: whenever two different source paths of a compiler output report the
same contract name, `normalize_compiler_output` returns the duplicate-name
manifest-building error, so the whole batch is aborted and no contract is
normalized. -/
theorem normalize_compiler_output_duplicate_names (co : CompilerOutput)
    (p₁ p₂ n : String) (m₁ m₂ : List (String × ContractData))
    (hne : p₁ ≠ p₂) (h₁ : (p₁, m₁) ∈ co) (h₂ : (p₂, m₂) ∈ co)
    (hn₁ : n ∈ m₁.map Prod.fst) (hn₂ : n ∈ m₂.map Prod.fst) :
    normalize_compiler_output co = Except.error BuildError.duplicateNames := by
  have hmem₁ : (p₁, n) ∈ paths_and_names co := by
    unfold paths_and_names
    refine List.mem_flatMap.mpr ⟨(p₁, m₁), h₁, ?_⟩
    obtain ⟨c, hc, hcn⟩ := List.mem_map.mp hn₁
    exact List.mem_map.mpr ⟨c, hc, by simp [hcn]⟩
  have hmem₂ : (p₂, n) ∈ paths_and_names co := by
    unfold paths_and_names
    refine List.mem_flatMap.mpr ⟨(p₂, m₂), h₂, ?_⟩
    obtain ⟨c, hc, hcn⟩ := List.mem_map.mp hn₂
    exact List.mem_map.mpr ⟨c, hc, by simp [hcn]⟩
  have hnodup : ¬ ((paths_and_names co).map Prod.snd).Nodup := by
    intro hd
    have heq := List.inj_on_of_nodup_map hd hmem₁ hmem₂ rfl
    exact hne (congrArg Prod.fst heq)
  have hnonempty : paths_and_names co ≠ [] := by
    intro he
    rw [he] at hmem₁
    exact List.not_mem_nil _ hmem₁
  unfold normalize_compiler_output
  rw [if_neg hnonempty, if_neg hnodup]

/-- C8 witness: the duplicate-name theorem on a compiler output whose two
source paths both report the contract name `"Dup"`. -/
theorem normalize_compiler_output_duplicate_names_witness :
    ("a.sol" ≠ "b.sol") ∧
      ("a.sol", [("Dup", sampleContractData)]) ∈ dupOutput ∧
      ("b.sol", [("Dup", sampleContractData)]) ∈ dupOutput ∧
      "Dup" ∈ ([("Dup", sampleContractData)].map Prod.fst) ∧
      normalize_compiler_output dupOutput = Except.error BuildError.duplicateNames :=
  ⟨by decide, by decide, by decide, by decide,
    normalize_compiler_output_duplicate_names dupOutput "a.sol" "b.sol" "Dup"
      [("Dup", sampleContractData)] [("Dup", sampleContractData)]
      (by decide) (by decide) (by decide) (by decide) (by decide)⟩

/-- The validation pipe of `process_bytecode` fails whenever any flattened
range has an invalid slot: piping the bytecode through `validate_link_ref`
for every range (each success returning the string unchanged) produces an
error as soon as one range's slot lacks the marker at both boundaries. -/
theorem foldlM_validate_error (refs : List LinkRef) (bytecode : List Char)
    (h : ∃ r ∈ refs, link_ref_invalid (r.start * 2) (r.length * 2) bytecode = true) :
    ∃ e, refs.foldlM
        (fun bc ref => validate_link_ref (ref.start * 2) (ref.length * 2) bc) bytecode
        = Except.error e := by
  induction refs with
  | nil => simp at h
  | cons r rest ih =>
    by_cases hr : link_ref_invalid (r.start * 2) (r.length * 2) bytecode = true
    · refine ⟨BuildError.invalidLinkRef (link_slot (r.start * 2) (r.length * 2) bytecode)
        (r.start * 2) (r.length * 2), ?_⟩
      simp [List.foldlM_cons, validate_link_ref, hr]
      rfl
    · have hok : validate_link_ref (r.start * 2) (r.length * 2) bytecode =
          Except.ok bytecode := by
        unfold validate_link_ref
        rw [if_neg hr]
      obtain ⟨r', hmem, hinv⟩ := h
      rcases List.mem_cons.mp hmem with heq | hmem'
      · rw [heq] at hinv
        exact absurd hinv hr
      · obtain ⟨e, he⟩ := ih ⟨r', hmem', hinv⟩
        refine ⟨e, ?_⟩
        rw [List.foldlM_cons, hok]
        exact he

/-- C9: whenever any declared link-reference range of the map has a slot
failing the placeholder-marker check on the input bytecode,
`process_bytecode` returns the format error and produces no patched
bytecode at all. -/
theorem process_bytecode_invalid_slot_error (link_refs : LinkRefs) (bytecode : List Char)
    (h : ∃ r ∈ all_link_refs link_refs,
        link_ref_invalid (r.start * 2) (r.length * 2) bytecode = true) :
    ∃ e, process_bytecode link_refs bytecode = Except.error e := by
  obtain ⟨e, he⟩ := foldlM_validate_error (all_link_refs link_refs) bytecode h
  refine ⟨e, ?_⟩
  have hdef : process_bytecode link_refs bytecode =
      ((all_link_refs link_refs).foldlM
          (fun bc ref => validate_link_ref (ref.start * 2) (ref.length * 2) bc) bytecode)
        >>= (fun _ => Except.ok (add0xPrefix ((all_link_refs link_refs).foldl
          (fun bc ref => replace_link_ref_in_bytecode (ref.start * 2) (ref.length * 2) bc)
          bytecode))) := rfl
  rw [hdef, he]
  rfl

/-- C9 witness: a map whose single range (byte offset 0, byte length 2)
covers the slot `"abcd"` of the bytecode `"abcdef"` — no boundary marker
at all — makes `process_bytecode` fail. -/
theorem process_bytecode_invalid_slot_error_witness :
    (∃ r ∈ all_link_refs [("p.sol", [("A", [⟨0, 2⟩])])],
        link_ref_invalid (r.start * 2) (r.length * 2) "abcdef".toList = true) ∧
      ∃ e, process_bytecode [("p.sol", [("A", [⟨0, 2⟩])])] "abcdef".toList =
        Except.error e :=
  ⟨by decide, process_bytecode_invalid_slot_error _ _ (by decide)⟩

/-- C3: the deploy-time validation succeeds exactly when, for every
`(offset, value)` pair, the bytecode window starting at `offset` of
`value`'s length is byte-identical to `value`; since the window truncates
at the buffer end, an overrunning window can never equal its value and so
counts as an ordinary mismatch. -/
theorem validate_link_dependencies_ok_iff (deps : List (Nat × List Nat))
    (bytecode : List Nat) :
    validate_link_dependencies deps bytecode = Except.ok () ↔
      ∀ p ∈ deps, (bytecode.drop p.1).take p.2.length = p.2 := by
  unfold validate_link_dependencies
  cases hf : deps.find? (fun p => !((bytecode.drop p.1).take p.2.length == p.2)) with
  | none =>
    constructor
    · intro _ p hp
      have hnp := List.find?_eq_none.mp hf p hp
      simpa using hnp
    · intro _
      rfl
  | some p =>
    constructor
    · intro hcontra
      exact Except.noConfusion hcontra
    · intro hall
      exfalso
      have hp := List.find?_some hf
      have heq := hall p (List.mem_of_find?_eq_some hf)
      rw [heq] at hp
      simp at hp

/-- C3 witness: the spec's positive example `validate(((1, b"abc"),), b"xabc")`
succeeds, via the characterization theorem. -/
theorem validate_link_dependencies_ok_iff_witness :
    validate_link_dependencies [(1, [97, 98, 99])] [120, 97, 98, 99] = Except.ok () :=
  (validate_link_dependencies_ok_iff [(1, [97, 98, 99])] [120, 97, 98, 99]).mpr
    (by decide)

/-- C4: on well-formed records, normalization is exactly the in-order
flattening: each input record, visited in list order, contributes one
`(offset, kind, value)` triple per offset in its `offsets` list in the
order given, with no cross-record sorting or deduplication. -/
theorem normalize_link_dependencies_flattens (deps : List RawLinkDependency)
    (h : ∀ d ∈ deps, d.offsets.isSome ∧ d.type.isSome ∧ d.value.isSome) :
    normalize_link_dependencies deps =
      Except.ok (deps.flatMap (fun d =>
        (d.offsets.getD []).map (fun o => (o, d.type.getD "", d.value.getD "")))) := by
  induction deps with
  | nil => rfl
  | cons d rest ih =>
    obtain ⟨h1, h2, h3⟩ := h d (List.mem_cons_self d rest)
    obtain ⟨os, hos⟩ := Option.isSome_iff_exists.mp h1
    obtain ⟨t, ht⟩ := Option.isSome_iff_exists.mp h2
    obtain ⟨v, hv⟩ := Option.isSome_iff_exists.mp h3
    have ih' := ih (fun q hq => h q (List.mem_cons_of_mem d hq))
    unfold normalize_link_dependencies
    rw [hos, ht, hv, ih']
    simp [hos, ht, hv]
    rfl

/-- C4 witness: the spec's example, two records flattening to three ordered
triples. -/
theorem normalize_link_dependencies_flattens_witness :
    (∀ d ∈ ([{ offsets := some [1], type := some "reference", value := some "123" },
             { offsets := some [2, 3], type := some "literal", value := some "abc" }] :
          List RawLinkDependency),
        d.offsets.isSome ∧ d.type.isSome ∧ d.value.isSome) ∧
      normalize_link_dependencies
          [{ offsets := some [1], type := some "reference", value := some "123" },
           { offsets := some [2, 3], type := some "literal", value := some "abc" }] =
        Except.ok [(1, "reference", "123"), (2, "literal", "abc"), (3, "literal", "abc")] :=
  ⟨by decide, normalize_link_dependencies_flattens _ (by decide)⟩

/-- C5: if any deployment of the name-keyed mapping contains a
`reference`-kind link dependency whose value is that deployment's own name,
`get_linked_deployments` fails with the self-reference (bytecode-linking)
error for the entire call, returning no partial mapping — regardless of how
well-formed the other deployments are. -/
theorem get_linked_deployments_self_reference (deployments : List (String × Deployment))
    (h : ∃ p ∈ deployments, has_self_reference p = true) :
    get_linked_deployments deployments = Except.error DeployError.selfReference := by
  obtain ⟨p, hmem, hp⟩ := h
  have hcand : (!(link_deps_of p.2).isEmpty) = true := by
    unfold has_self_reference at hp
    obtain ⟨dep, hdep, _⟩ := List.any_eq_true.mp hp
    cases hld : link_deps_of p.2 with
    | nil =>
      rw [hld] at hdep
      exact absurd hdep (List.not_mem_nil dep)
    | cons a l => simp [hld]
  have hany : (deployments.filter (fun p => !(link_deps_of p.2).isEmpty)).any
      has_self_reference = true :=
    List.any_eq_true.mpr ⟨p, List.mem_filter.mpr ⟨hmem, hcand⟩, hp⟩
  unfold get_linked_deployments
  rw [if_pos hany]

/-- C5 witness: the test suite's self-referencing `"Escrow"` deployment next
to a well-formed sibling makes the whole call fail. -/
theorem get_linked_deployments_self_reference_witness :
    (∃ p ∈ [("SafeMathLib", safeMathDeployment), ("Escrow", escrowDeployment)],
        has_self_reference p = true) ∧
      get_linked_deployments
          [("SafeMathLib", safeMathDeployment), ("Escrow", escrowDeployment)] =
        Except.error DeployError.selfReference :=
  ⟨by decide, get_linked_deployments_self_reference _ (by decide)⟩

end EthPM
